import Mathlib

/-!
Verification of the quantdash computation engines against their specification.

The engines live in `src/app/page.tsx`:
* the portfolio rebalancer (`calculations`, lines 444-467),
* the Black-Scholes pricer (`normalCDF`, `normalPDF`, `calculateBlackScholes`,
  lines 827-864),
* the Monte Carlo simulator (`generateGaussianRandom`, `simulateGBMPath`,
  `runMonteCarloSimulation`, lines 12-32 and 369-428).

JavaScript numbers are modelled as real numbers; JavaScript's implicit
randomness (`Math.random`) is modelled by passing the stream of draws
explicitly.  Local variables of the source become `let`s or named
definitions; loops become folds, maps and structural recursion.
-/

namespace QuantDash

open scoped Classical

/-- The single error kind of spec section 7, carrying the offending field
name and value.  The source functions under `src/` contain no `throw`
statement at all, so the `Except`-valued entry points below only ever use
the `ok` constructor; the error type records the interface the spec
describes. -/
structure InvalidParameter where
  fieldName : String
  value : ℝ

/-! ## Rebalancing allocator (`calculations`, page.tsx lines 444-467) -/

/-- Mirror of the `Asset` interface of the source. -/
structure Asset where
  id : String
  name : String
  currentValue : ℝ
  targetAllocation : ℝ

/-- The three action strings `'BUY' | 'SELL' | 'HOLD'` of the source. -/
inductive TradeAction where
  | BUY
  | SELL
  | HOLD
deriving DecidableEq

/-- One element of the `actions` array: the source spreads the asset and
adds `targetValue`, `delta` and `action`. -/
structure RebalanceItem where
  asset : Asset
  targetValue : ℝ
  delta : ℝ
  action : TradeAction

/-- The record returned by the `calculations` memo of the source (the two
chart-data fields `currentData`/`targetData` are presentation glue and are
not part of any claim, so they are omitted). -/
structure RebalanceReport where
  totalValue : ℝ
  totalAllocation : ℝ
  isValid : Bool
  actions : List RebalanceItem
  actionableItems : List RebalanceItem

/-- The per-asset body of `assets.map(...)` in `calculations`:
`targetValue = (totalValue * (asset.targetAllocation || 0)) / 100`,
`delta = targetValue - (asset.currentValue || 0)`, and
`action = delta > 0.01 ? 'BUY' : delta < -0.01 ? 'SELL' : 'HOLD'`.
(`x || 0` is the identity on real-valued inputs; it guards `undefined`.) -/
noncomputable def rebalanceItem (totalValue : ℝ) (a : Asset) : RebalanceItem :=
  let targetValue := totalValue * a.targetAllocation / 100
  let delta := targetValue - a.currentValue
  { asset := a
    targetValue := targetValue
    delta := delta
    action := if delta > 0.01 then TradeAction.BUY
      else if delta < -0.01 then TradeAction.SELL else TradeAction.HOLD }

/-- `calculations` (page.tsx lines 444-467):
`totalValue = assets.reduce((sum, a) => sum + (a.currentValue || 0), 0)`,
`totalAllocation = assets.reduce((sum, a) => sum + (a.targetAllocation || 0), 0)`,
`isValid = Math.abs(totalAllocation - 100) < 0.01`, the mapped `actions`,
and `actionableItems = actions.filter(a => a.action !== 'HOLD')`. -/
noncomputable def calculations (assets : List Asset) : RebalanceReport :=
  let totalValue : ℝ := assets.foldl (fun sum a => sum + a.currentValue) 0
  let totalAllocation : ℝ := assets.foldl (fun sum a => sum + a.targetAllocation) 0
  let isValid : Bool := decide (|totalAllocation - 100| < 0.01)
  let actions := assets.map (rebalanceItem totalValue)
  { totalValue := totalValue
    totalAllocation := totalAllocation
    isValid := isValid
    actions := actions
    actionableItems := actions.filter fun a => decide (a.action ≠ TradeAction.HOLD) }

/-- Spec section 6 entry point `rebalancePortfolio`.  The source computes
`calculations` unconditionally: there is no validation and no `throw`, so
every input yields `Except.ok`. -/
noncomputable def rebalancePortfolio (assets : List Asset) :
    Except InvalidParameter RebalanceReport :=
  Except.ok (calculations assets)

/-- A left fold accumulating `+ f a` is the sum of the mapped list. -/
theorem foldl_add_eq_sum {α : Type} (f : α → ℝ) :
    ∀ (l : List α) (init : ℝ), l.foldl (fun s a => s + f a) init = init + (l.map f).sum
  | [], init => by simp
  | a :: l, init => by
    simp [List.foldl_cons, foldl_add_eq_sum f l (init + f a)]
    ring

/-- A left fold accumulating `+ p` is the sum of the list. -/
theorem foldl_add_id_eq_sum :
    ∀ (l : List ℝ) (init : ℝ), l.foldl (fun s p => s + p) init = init + l.sum
  | [], init => by simp
  | p :: l, init => by
    simp [List.foldl_cons, foldl_add_id_eq_sum l (init + p)]
    ring

/-- C3: for every sequence of assets and every position `i` in input order,
the rebalancer's `actions[i]` has `targetValue = totalValue * targetAllocation / 100`
(with `totalValue` the sum of all `currentValue`), `delta = targetValue - currentValue`,
and `action = BUY` when `delta > 0.01`, `SELL` when `delta < -0.01`, `HOLD`
otherwise; and `isValid` is `true` exactly when `|totalAllocation - 100| < 0.01`. -/
theorem calculations_spec (assets : List Asset) (i : ℕ) (hi : i < assets.length) :
    (calculations assets).totalValue = (assets.map fun a => a.currentValue).sum ∧
    (calculations assets).totalAllocation = (assets.map fun a => a.targetAllocation).sum ∧
    ((calculations assets).isValid = true ↔
      |(assets.map fun a => a.targetAllocation).sum - 100| < 0.01) ∧
    (calculations assets).actions[i]? = some
      { asset := assets[i]
        targetValue := (assets.map fun a => a.currentValue).sum * assets[i].targetAllocation / 100
        delta := (assets.map fun a => a.currentValue).sum * assets[i].targetAllocation / 100
          - assets[i].currentValue
        action :=
          if (assets.map fun a => a.currentValue).sum * assets[i].targetAllocation / 100
              - assets[i].currentValue > 0.01 then TradeAction.BUY
          else if (assets.map fun a => a.currentValue).sum * assets[i].targetAllocation / 100
              - assets[i].currentValue < -0.01 then TradeAction.SELL
          else TradeAction.HOLD } := by
  refine ⟨?_, ?_, ?_, ?_⟩
  · simp [calculations, foldl_add_eq_sum]
  · simp [calculations, foldl_add_eq_sum]
  · simp [calculations, foldl_add_eq_sum, decide_eq_true_eq]
  · simp [calculations, rebalanceItem, foldl_add_eq_sum, List.getElem?_map,
      List.getElem?_eq_getElem hi]

/-- Witness for C3 at a concrete two-asset portfolio and index 0. -/
theorem calculations_spec_witness :
    (0 < ([⟨"1", "Stocks", 60, 50⟩, ⟨"2", "Bonds", 40, 50⟩] : List Asset).length) ∧
    ((calculations [⟨"1", "Stocks", 60, 50⟩, ⟨"2", "Bonds", 40, 50⟩]).isValid = true ↔
      |(([⟨"1", "Stocks", 60, 50⟩, ⟨"2", "Bonds", 40, 50⟩] : List Asset).map
          fun a => a.targetAllocation).sum - 100| < 0.01) :=
  ⟨by norm_num,
    (calculations_spec [⟨"1", "Stocks", 60, 50⟩, ⟨"2", "Bonds", 40, 50⟩] 0
      (by norm_num)).2.2.1⟩

/-- C5 counterexample: with a negative `currentValue` (-5) the rebalancer
does not fail with `InvalidParameter`: it returns an ok report. -/
theorem rebalancePortfolio_negative_ok :
    (rebalancePortfolio [⟨"1", "Stocks", -5, 50⟩, ⟨"2", "Bonds", 10, 50⟩]).isOk = true :=
  rfl

/-- C5 (amended): the rebalancer never fails at all: on every input - with
malformed allocations or with negative `currentValue` - it returns the
report computed by `calculations`, never an `InvalidParameter` error. -/
theorem rebalancePortfolio_never_fails (assets : List Asset) :
    rebalancePortfolio assets = Except.ok (calculations assets) ∧
    (rebalancePortfolio assets).isOk = true :=
  ⟨rfl, rfl⟩

/-- Sum of `c * targetAllocation / 100` over a list of assets. -/
theorem sum_map_targetValue (c : ℝ) :
    ∀ l : List Asset,
      (l.map fun a => c * a.targetAllocation / 100).sum
        = c * (l.map fun a => a.targetAllocation).sum / 100
  | [] => by simp
  | a :: l => by
    simp [sum_map_targetValue c l]
    ring

/-- C8: for every portfolio, the sum of the `targetValue` outputs equals
`totalValue * totalAllocation / 100`; and when `totalAllocation = 90` the
report has `isValid = false` while an action is still computed for every
asset. -/
theorem targetValue_sum_spec (assets : List Asset) :
    ((calculations assets).actions.map fun it => it.targetValue).sum
      = (calculations assets).totalValue * (calculations assets).totalAllocation / 100 ∧
    ((calculations assets).totalAllocation = 90 →
      (calculations assets).isValid = false ∧
      (calculations assets).actions.length = assets.length) := by
  constructor
  · have hmap : ∀ tv : ℝ,
        ((assets.map (rebalanceItem tv)).map fun it => it.targetValue)
          = assets.map fun a => tv * a.targetAllocation / 100 := by
      intro tv
      simp [rebalanceItem, List.map_map, Function.comp]
    simp only [calculations]
    rw [hmap, sum_map_targetValue]
    simp [foldl_add_eq_sum]
  · intro h90
    have h90f : assets.foldl (fun sum a => sum + a.targetAllocation) 0 = 90 := by
      simpa [calculations] using h90
    constructor
    · simp only [calculations]
      rw [h90f, decide_eq_false_iff_not]
      norm_num
    · simp [calculations]

/-- Witness for C8 at a portfolio whose allocations sum to 90. -/
theorem targetValue_sum_spec_witness :
    (calculations [⟨"1", "Stocks", 60, 60⟩, ⟨"2", "Bonds", 40, 30⟩]).totalAllocation = 90 ∧
    (calculations [⟨"1", "Stocks", 60, 60⟩, ⟨"2", "Bonds", 40, 30⟩]).isValid = false ∧
    (calculations [⟨"1", "Stocks", 60, 60⟩, ⟨"2", "Bonds", 40, 30⟩]).actions.length = 2 ∧
    ((calculations [⟨"1", "Stocks", 60, 60⟩, ⟨"2", "Bonds", 40, 30⟩]).actions.map
        fun it => it.targetValue).sum
      = (calculations [⟨"1", "Stocks", 60, 60⟩, ⟨"2", "Bonds", 40, 30⟩]).totalValue
        * (calculations [⟨"1", "Stocks", 60, 60⟩, ⟨"2", "Bonds", 40, 30⟩]).totalAllocation
        / 100 := by
  have h90 : (calculations [⟨"1", "Stocks", 60, 60⟩, ⟨"2", "Bonds", 40, 30⟩]).totalAllocation
      = 90 := by
    simp [calculations]
    norm_num
  have h := targetValue_sum_spec [⟨"1", "Stocks", 60, 60⟩, ⟨"2", "Bonds", 40, 30⟩]
  exact ⟨h90, (h.2 h90).1, (h.2 h90).2, h.1⟩

/-! ## Black-Scholes pricer (page.tsx lines 827-864) -/

/-- The Abramowitz-Stegun polynomial of `normalCDF`, evaluated at
`t = 1 / (1 + 0.2316419 * |x|)`:
`0.3193815 + t * (-0.3565638 + t * (1.781478 + t * (-1.821256 + t * 1.330274)))`. -/
noncomputable def polyAS (t : ℝ) : ℝ :=
  0.3193815 + t * (-0.3565638 + t * (1.781478 + t * (-1.821256 + t * 1.330274)))

/-- The `prob` local of `normalCDF`: `d * t * polyAS t` with
`t = 1 / (1 + 0.2316419 * Math.abs(x))` and
`d = 0.3989423 * Math.exp(-x * x / 2)`. -/
noncomputable def probPart (x : ℝ) : ℝ :=
  (0.3989423 * Real.exp (-x * x / 2)) * (1 / (1 + 0.2316419 * |x|))
    * polyAS (1 / (1 + 0.2316419 * |x|))

/-- `normalCDF` (page.tsx line 827): `return x > 0 ? 1 - prob : prob`. -/
noncomputable def normalCDF (x : ℝ) : ℝ :=
  if x > 0 then 1 - probPart x else probPart x

/-- `normalPDF` (page.tsx line 834): `Math.exp(-0.5 * x * x) / Math.sqrt(2 * Math.PI)`. -/
noncomputable def normalPDF (x : ℝ) : ℝ :=
  Real.exp (-0.5 * x * x) / Real.sqrt (2 * Real.pi)

/-- The `d1` local of `calculateBlackScholes`:
`(Math.log(S / K) + (r + 0.5 * sigma * sigma) * T) / (sigma * Math.sqrt(T))`. -/
noncomputable def d1 (S K T r sigma : ℝ) : ℝ :=
  (Real.log (S / K) + (r + 0.5 * sigma * sigma) * T) / (sigma * Real.sqrt T)

/-- The `d2` local of `calculateBlackScholes`: `d1 - sigma * Math.sqrt(T)`. -/
noncomputable def d2 (S K T r sigma : ℝ) : ℝ :=
  d1 S K T r sigma - sigma * Real.sqrt T

/-- Mirror of the `BlackScholesResult` interface of the source. -/
structure BlackScholesResult where
  callPrice : ℝ
  putPrice : ℝ
  delta : ℝ
  gamma : ℝ
  theta : ℝ
  vega : ℝ
  rho : ℝ

/-- `calculateBlackScholes` (page.tsx lines 838-864), including the final
`{ ..., theta: theta / 365, vega: vega / 100, rho: rho / 100 }` scaling. -/
noncomputable def calculateBlackScholes (S K T r sigma : ℝ) : BlackScholesResult :=
  let Nd1 := normalCDF (d1 S K T r sigma)
  let Nd2 := normalCDF (d2 S K T r sigma)
  let Nmd1 := normalCDF (-d1 S K T r sigma)
  let Nmd2 := normalCDF (-d2 S K T r sigma)
  let nd1 := normalPDF (d1 S K T r sigma)
  { callPrice := S * Nd1 - K * Real.exp (-r * T) * Nd2
    putPrice := K * Real.exp (-r * T) * Nmd2 - S * Nmd1
    delta := Nd1
    gamma := nd1 / (S * sigma * Real.sqrt T)
    theta := (-(S * nd1 * sigma) / (2 * Real.sqrt T)
      - r * K * Real.exp (-r * T) * Nd2) / 365
    vega := S * nd1 * Real.sqrt T / 100
    rho := K * T * Real.exp (-r * T) * Nd2 / 100 }

/-- Spec section 6 entry point `priceOption`.  The source exposes
`calculateBlackScholes` directly, with no validation and no `throw`, so
every input yields `Except.ok`. -/
noncomputable def priceOption (S K T r sigma : ℝ) :
    Except InvalidParameter BlackScholesResult :=
  Except.ok (calculateBlackScholes S K T r sigma)

/-- `probPart` only depends on `x` through `|x|` and `x * x`, so it is even. -/
theorem probPart_neg (x : ℝ) : probPart (-x) = probPart x := by
  unfold probPart
  rw [abs_neg, show -(-x) * (-x) = -x * x by ring]

/-- The Abramowitz-Stegun polynomial is nonnegative on `[0, 1]`. -/
theorem polyAS_nonneg {t : ℝ} (h0 : 0 ≤ t) (h1 : t ≤ 1) : 0 ≤ polyAS t := by
  unfold polyAS
  nlinarith [sq_nonneg (t * t - 0.18), sq_nonneg (t - 0.42),
    mul_nonneg (mul_nonneg h0 h0) (sub_nonneg.2 h1)]

/-- The Abramowitz-Stegun polynomial is at most its value at 1 on `[0, 1]`. -/
theorem polyAS_le {t : ℝ} (h0 : 0 ≤ t) (h1 : t ≤ 1) : polyAS t ≤ 1.2533137 := by
  unfold polyAS
  nlinarith [mul_nonneg h0 (sq_nonneg (1 - t)),
    mul_nonneg (mul_nonneg (mul_nonneg h0 h0) h0) (sub_nonneg.2 h1),
    mul_nonneg h0 (sub_nonneg.2 h1), sub_nonneg.2 h1]

/-- The `prob` value of `normalCDF` lies in `[0, 1]` for every real `x`. -/
theorem probPart_bounds (x : ℝ) : 0 ≤ probPart x ∧ probPart x ≤ 1 := by
  have habs : (0:ℝ) ≤ |x| := abs_nonneg x
  have hden : (1:ℝ) ≤ 1 + 0.2316419 * |x| := by nlinarith
  have hdenpos : (0:ℝ) < 1 + 0.2316419 * |x| := by linarith
  have ht0 : (0:ℝ) < 1 / (1 + 0.2316419 * |x|) := by positivity
  have ht1 : 1 / (1 + 0.2316419 * |x|) ≤ 1 := by
    rw [div_le_one hdenpos]
    exact hden
  have hexp0 : (0:ℝ) < Real.exp (-x * x / 2) := Real.exp_pos _
  have hexp1 : Real.exp (-x * x / 2) ≤ 1 := by
    rw [Real.exp_le_one_iff]
    nlinarith [mul_self_nonneg x]
  have hp0 := polyAS_nonneg ht0.le ht1
  have hp1 := polyAS_le ht0.le ht1
  constructor
  · unfold probPart
    have : (0:ℝ) ≤ 0.3989423 * Real.exp (-x * x / 2) := by positivity
    exact mul_nonneg (mul_nonneg this ht0.le) hp0
  · unfold probPart
    have h1le : 0.3989423 * Real.exp (-x * x / 2) ≤ 0.3989423 := by nlinarith
    have h1nn : (0:ℝ) ≤ 0.3989423 * Real.exp (-x * x / 2) := by positivity
    have h2le : 0.3989423 * Real.exp (-x * x / 2) * (1 / (1 + 0.2316419 * |x|))
        ≤ 0.3989423 := by nlinarith
    have h2nn : (0:ℝ) ≤ 0.3989423 * Real.exp (-x * x / 2) * (1 / (1 + 0.2316419 * |x|)) :=
      mul_nonneg h1nn ht0.le
    nlinarith [mul_le_mul h2le hp1 hp0 (by norm_num : (0:ℝ) ≤ 0.3989423)]

/-- `normalCDF` always lands in `[0, 1]`. -/
theorem normalCDF_bounds (x : ℝ) : 0 ≤ normalCDF x ∧ normalCDF x ≤ 1 := by
  obtain ⟨h0, h1⟩ := probPart_bounds x
  unfold normalCDF
  split <;> constructor <;> linarith

/-- For nonzero `x` the two branches of `normalCDF` are complementary:
`normalCDF x + normalCDF (-x) = 1` exactly.  (At `x = 0` both branches
return `probPart 0 = 0.49999985009951`, and the sum falls short of 1 by
about `3e-7`.) -/
theorem normalCDF_add_neg {x : ℝ} (hx : x ≠ 0) :
    normalCDF x + normalCDF (-x) = 1 := by
  rcases lt_or_gt_of_ne hx with h | h
  · rw [normalCDF, normalCDF, if_neg (by linarith), if_pos (by linarith), probPart_neg]
    ring
  · rw [normalCDF, normalCDF, if_pos h, if_neg (by linarith), probPart_neg]
    ring

/-- C1 (amended): for every valid input (`S>0`, `K>0`, `T>0`, `sigma>0`, any
`r`) at which neither CDF argument `d1` nor `d2` is exactly zero, the
pricer satisfies put-call parity exactly, in particular within the claimed
1e-5 tolerance.  (At `d1 = 0` or `d2 = 0` the `x > 0` branch test of
`normalCDF` makes both `normalCDF x` and `normalCDF (-x)` return
`probPart 0 = 0.49999985009951`, so the parity defect is about `3e-7`
times `S` resp. `K * exp(-rT)`; see the counterexample.) -/
theorem putCallParity (S K T r sigma : ℝ) (hS : 0 < S) (hK : 0 < K)
    (hT : 0 < T) (hsigma : 0 < sigma)
    (hd1 : d1 S K T r sigma ≠ 0) (hd2 : d2 S K T r sigma ≠ 0) :
    |(calculateBlackScholes S K T r sigma).callPrice
      - (calculateBlackScholes S K T r sigma).putPrice
      - (S - K * Real.exp (-r * T))| ≤ 1e-5 := by
  have h1 := normalCDF_add_neg hd1
  have h2 := normalCDF_add_neg hd2
  simp only [calculateBlackScholes]
  have hzero : S * normalCDF (d1 S K T r sigma)
      - K * Real.exp (-r * T) * normalCDF (d2 S K T r sigma)
      - (K * Real.exp (-r * T) * normalCDF (-d2 S K T r sigma)
        - S * normalCDF (-d1 S K T r sigma))
      - (S - K * Real.exp (-r * T)) = 0 := by
    linear_combination S * h1 - K * Real.exp (-r * T) * h2
  rw [hzero, abs_zero]
  norm_num

/-- Witness for C1 at `S = K = 100`, `T = 1`, `r = 0.05`, `sigma = 0.2`,
where `d1 = 0.35` and `d2 = 0.15`. -/
theorem putCallParity_witness :
    ((0:ℝ) < 100 ∧ (0:ℝ) < 1 ∧ (0:ℝ) < 1/5 ∧
      d1 100 100 1 (1/20) (1/5) ≠ 0 ∧ d2 100 100 1 (1/20) (1/5) ≠ 0) ∧
    |(calculateBlackScholes 100 100 1 (1/20) (1/5)).callPrice
      - (calculateBlackScholes 100 100 1 (1/20) (1/5)).putPrice
      - (100 - 100 * Real.exp (-(1/20) * 1))| ≤ 1e-5 := by
  have hd1 : d1 100 100 1 (1/20) (1/5) = 7/20 := by
    unfold d1
    rw [show (100:ℝ)/100 = 1 by norm_num, Real.log_one, Real.sqrt_one]
    norm_num
  have hd2 : d2 100 100 1 (1/20) (1/5) = 3/20 := by
    unfold d2
    rw [hd1, Real.sqrt_one]
    norm_num
  refine ⟨⟨by norm_num, by norm_num, by norm_num,
    by rw [hd1]; norm_num, by rw [hd2]; norm_num⟩, ?_⟩
  exact putCallParity 100 100 1 (1/20) (1/5) (by norm_num) (by norm_num)
    (by norm_num) (by norm_num) (by rw [hd1]; norm_num) (by rw [hd2]; norm_num)

/-- C1 counterexample: at the valid input `S = K = 100`, `T = 1`,
`r = -0.125`, `sigma = 0.5` (all exactly representable as doubles, so the
actual JavaScript computation hits the same branch) the argument `d1` is
exactly zero (`ln(S/K) = 0` and `r + sigma^2/2 = 0`), and the parity
defect is `200 * probPart 0 - 100 = -2.9980098e-5`, outside the 1e-5
tolerance. -/
theorem putCallParity_cex :
    ¬ (|(calculateBlackScholes 100 100 1 (-(1/8)) (1/2)).callPrice
        - (calculateBlackScholes 100 100 1 (-(1/8)) (1/2)).putPrice
        - (100 - 100 * Real.exp (-(-(1/8)) * 1))| ≤ 1e-5) := by
  have hd1 : d1 100 100 1 (-(1/8)) (1/2) = 0 := by
    unfold d1
    rw [show (100:ℝ)/100 = 1 by norm_num, Real.log_one]
    norm_num
  have hd2 : d2 100 100 1 (-(1/8)) (1/2) = -(1/2) := by
    unfold d2
    rw [hd1, Real.sqrt_one]
    norm_num
  have hsum : normalCDF (-(1/2) : ℝ) + normalCDF (1/2 : ℝ) = 1 := by
    have h := normalCDF_add_neg (x := (-(1/2) : ℝ)) (by norm_num)
    simpa using h
  have hprob0 : probPart 0 = 0.49999985009951 := by
    unfold probPart polyAS
    norm_num
  have hcdf0 : normalCDF 0 = 0.49999985009951 := by
    unfold normalCDF
    rw [if_neg (by norm_num), hprob0]
  simp only [calculateBlackScholes]
  rw [hd1, hd2]
  simp only [neg_neg, neg_zero]
  rw [hcdf0]
  have hval : (100:ℝ) * 0.49999985009951
      - 100 * Real.exp (1/8 * 1) * normalCDF (-(1/2))
      - (100 * Real.exp (1/8 * 1) * normalCDF (1/2) - 100 * 0.49999985009951)
      - (100 - 100 * Real.exp (1/8 * 1)) = -0.000029980098 := by
    linear_combination (-(100:ℝ) * Real.exp (1/8 * 1)) * hsum
  rw [hval, abs_of_neg (by norm_num)]
  norm_num

/-- C2 counterexample: called with `T = 0` (and positive `S`, `K`,
`sigma`), the pricer does not fail with `InvalidParameter`: it returns an
ok result (whose numeric fields in JavaScript are NaN, the engine having
divided by `sigma * sqrt(T) = 0`). -/
theorem priceOption_no_reject :
    (priceOption 100 100 0 (1/20) (1/5)).isOk = true :=
  rfl

/-- C2 (amended): the pricer performs no input validation at all: every
call, including with non-positive `S`, `K`, `T` or `sigma`, returns the
result of the raw formulas as `Except.ok` and never an `InvalidParameter`
error. -/
theorem priceOption_never_fails (S K T r sigma : ℝ) :
    priceOption S K T r sigma = Except.ok (calculateBlackScholes S K T r sigma) ∧
    (priceOption S K T r sigma).isOk = true :=
  ⟨rfl, rfl⟩

/-- C9: for every valid input (`S>0`, `K>0`, `T>0`, `sigma>0`, any `r`),
the returned `delta = normalCDF d1` lies in `[0, 1]` and the returned
`gamma = normalPDF d1 / (S * sigma * sqrt T)` is nonnegative. -/
theorem delta_gamma_bounds (S K T r sigma : ℝ) (hS : 0 < S) (hK : 0 < K)
    (hT : 0 < T) (hsigma : 0 < sigma) :
    0 ≤ (calculateBlackScholes S K T r sigma).delta ∧
    (calculateBlackScholes S K T r sigma).delta ≤ 1 ∧
    0 ≤ (calculateBlackScholes S K T r sigma).gamma := by
  obtain ⟨h0, h1⟩ := normalCDF_bounds (d1 S K T r sigma)
  refine ⟨?_, ?_, ?_⟩
  · simpa only [calculateBlackScholes] using h0
  · simpa only [calculateBlackScholes] using h1
  · have hnum : 0 ≤ normalPDF (d1 S K T r sigma) := by
      unfold normalPDF
      positivity
    have hden : 0 ≤ S * sigma * Real.sqrt T :=
      mul_nonneg (mul_nonneg hS.le hsigma.le) (Real.sqrt_nonneg T)
    simpa only [calculateBlackScholes] using div_nonneg hnum hden

/-- Witness for C9 at `S = K = 100`, `T = 1`, `r = 0.05`, `sigma = 0.2`. -/
theorem delta_gamma_bounds_witness :
    ((0:ℝ) < 100 ∧ (0:ℝ) < 1 ∧ (0:ℝ) < 1/5) ∧
    (0 ≤ (calculateBlackScholes 100 100 1 (1/20) (1/5)).delta ∧
      (calculateBlackScholes 100 100 1 (1/20) (1/5)).delta ≤ 1 ∧
      0 ≤ (calculateBlackScholes 100 100 1 (1/20) (1/5)).gamma) :=
  ⟨⟨by norm_num, by norm_num, by norm_num⟩,
    delta_gamma_bounds 100 100 1 (1/20) (1/5) (by norm_num) (by norm_num)
      (by norm_num) (by norm_num)⟩

/-! ## Monte Carlo simulator (page.tsx lines 12-32 and 369-428) -/

/-- The loop `let u = 0; while (u === 0) u = Math.random();` of
`generateGaussianRandom`: consume uniform draws until the first nonzero
one, returning it together with the remaining draws.  `none` models a
finite stream exhausted by zeros (on which the source loop would simply
keep drawing). -/
noncomputable def firstNonzero : List ℝ → Option (ℝ × List ℝ)
  | [] => none
  | u :: rest => if u = 0 then firstNonzero rest else some (u, rest)

/-- `generateGaussianRandom` (page.tsx lines 12-17): Box-Muller transform
`Math.sqrt(-2.0 * Math.log(u1)) * Math.cos(2.0 * Math.PI * u2)` from two
uniform draws, each resampled while it is exactly 0.  The implicit
`Math.random()` stream is passed explicitly as `draws`. -/
noncomputable def generateGaussianRandom (draws : List ℝ) : Option (ℝ × List ℝ) :=
  match firstNonzero draws with
  | none => none
  | some (u1, rest1) =>
    match firstNonzero rest1 with
    | none => none
    | some (u2, rest2) =>
      some (Real.sqrt (-2.0 * Real.log u1) * Real.cos (2.0 * Real.pi * u2), rest2)

/-- The price at step `i` of `simulateGBMPath`: `path[0] = S0` and
`path[i] = path[i-1] * Math.exp(drift + diffusion)` with
`drift = (r - 0.5 * sigma * sigma) * dt`,
`diffusion = sigma * Math.sqrt(dt) * Z(i)` and `dt = T / steps`; the
standard normal draws `Z` are passed explicitly. -/
noncomputable def gbmStep (S0 r sigma T : ℝ) (steps : ℕ) (Z : ℕ → ℝ) : ℕ → ℝ
  | 0 => S0
  | i + 1 => gbmStep S0 r sigma T steps Z i *
      Real.exp ((r - 0.5 * sigma * sigma) * (T / steps)
        + sigma * Real.sqrt (T / steps) * Z (i + 1))

/-- `simulateGBMPath` (page.tsx lines 19-32): the array `path[0..steps]`. -/
noncomputable def simulateGBMPath (S0 r sigma T : ℝ) (steps : ℕ) (Z : ℕ → ℝ) : List ℝ :=
  (List.range (steps + 1)).map (gbmStep S0 r sigma T steps Z)

/-- `optionType ∈ {call, put}` of the simulator configuration. -/
inductive OptionType where
  | call
  | put
deriving DecidableEq

/-- The `mcParams` record destructured at the top of
`runMonteCarloSimulation`. -/
structure SimulationConfig where
  S0 : ℝ
  K : ℝ
  T : ℝ
  r : ℝ
  sigma : ℝ
  iterations : ℕ
  steps : ℕ
  optionType : OptionType

/-- The record passed to `setMcResults` at the end of
`runMonteCarloSimulation`. -/
structure SimulationResult where
  optionPrice : ℝ
  standardError : ℝ
  inTheMoneyProbability : ℝ
  valueAtRisk : ℝ
  visualPaths : List (List ℝ)

/-- The `allPaths` array of `runMonteCarloSimulation`: one GBM path per
iteration, iteration `i` using the draw stream `Z i`. -/
noncomputable def allPaths (cfg : SimulationConfig) (Z : ℕ → ℕ → ℝ) : List (List ℝ) :=
  (List.range cfg.iterations).map fun i =>
    simulateGBMPath cfg.S0 cfg.r cfg.sigma cfg.T cfg.steps (Z i)

/-- Terminal payoff of one path: `ST = path[path.length - 1]`, then
`Math.max(ST - K, 0)` for a call and `Math.max(K - ST, 0)` for a put. -/
noncomputable def terminalPayoff (cfg : SimulationConfig) (path : List ℝ) : ℝ :=
  match cfg.optionType with
  | OptionType.call => max (path.getLastD 0 - cfg.K) 0
  | OptionType.put => max (cfg.K - path.getLastD 0) 0

/-- The undiscounted payoffs of all iterations (the values tested by
`if (payoff > 0) inTheMoneyCount++`). -/
noncomputable def rawPayoffs (cfg : SimulationConfig) (Z : ℕ → ℕ → ℝ) : List ℝ :=
  (allPaths cfg Z).map (terminalPayoff cfg)

/-- The `payoffs` array of the source: each payoff discounted by
`Math.exp(-r * T)`. -/
noncomputable def discountedPayoffs (cfg : SimulationConfig) (Z : ℕ → ℕ → ℝ) : List ℝ :=
  (rawPayoffs cfg Z).map fun payoff => payoff * Real.exp (-cfg.r * cfg.T)

/-- `runMonteCarloSimulation` (page.tsx lines 369-428).  The accumulations
`sumPayoff += ...` and `sumPayoffSquared += ...` become left folds, the
in-place `payoffs.sort((a, b) => a - b)` becomes `insertionSort (≤)`, and
the visualization loop `for (i = 0; i < iterations; i += step)` with its
`length < 20` guard becomes a map over the multiples of `step` below
`iterations` (there are `⌈iterations / step⌉` of them) truncated to 20. -/
noncomputable def runMonteCarloSimulation (cfg : SimulationConfig) (Z : ℕ → ℕ → ℝ) :
    SimulationResult :=
  let payoffs := discountedPayoffs cfg Z
  let sumPayoff : ℝ := payoffs.foldl (fun s p => s + p) 0
  let sumPayoffSquared : ℝ := payoffs.foldl (fun s p => s + p * p) 0
  let inTheMoneyCount : ℕ := ((rawPayoffs cfg Z).filter fun p => decide (p > 0)).length
  let optionPrice := sumPayoff / (cfg.iterations : ℝ)
  let variance := sumPayoffSquared / (cfg.iterations : ℝ) - optionPrice * optionPrice
  let standardError := Real.sqrt (variance / (cfg.iterations : ℝ))
  let inTheMoneyProbability := ((inTheMoneyCount : ℝ) / (cfg.iterations : ℝ)) * 100
  let sorted := payoffs.insertionSort fun a b => a ≤ b
  let index5th := Nat.floor ((cfg.iterations : ℝ) * 0.05)
  let payoff5th := sorted.getD index5th 0
  let valueAtRisk := optionPrice - payoff5th
  let step := max 1 (cfg.iterations / 20)
  let visualPaths := ((List.range ((cfg.iterations + step - 1) / step)).map
    fun j => (allPaths cfg Z).getD (j * step) []).take 20
  { optionPrice := optionPrice
    standardError := standardError
    inTheMoneyProbability := inTheMoneyProbability
    valueAtRisk := valueAtRisk
    visualPaths := visualPaths }

/-- A successful `firstNonzero` returns a nonzero element of the list, and
the leftover draws are also drawn from the list. -/
theorem firstNonzero_spec :
    ∀ {l : List ℝ} {u : ℝ} {rest : List ℝ}, firstNonzero l = some (u, rest) →
      u ≠ 0 ∧ u ∈ l ∧ ∀ x ∈ rest, x ∈ l := by
  intro l
  induction l with
  | nil => intro u rest h; simp [firstNonzero] at h
  | cons a as ih =>
    intro u rest h
    by_cases ha : a = 0
    · rw [firstNonzero, if_pos ha] at h
      obtain ⟨hu, hmem, hsub⟩ := ih h
      exact ⟨hu, List.mem_cons_of_mem a hmem, fun x hx => List.mem_cons_of_mem a (hsub x hx)⟩
    · rw [firstNonzero, if_neg ha] at h
      obtain ⟨rfl, rfl⟩ : a = u ∧ as = rest := by
        constructor <;> [exact congrArg Prod.fst (Option.some.inj h);
          exact congrArg Prod.snd (Option.some.inj h)]
      exact ⟨ha, List.mem_cons_self a as, fun x hx => List.mem_cons_of_mem a hx⟩

/-- C7: whenever the Gaussian generator returns a sample from a stream of
uniform draws in `[0, 1)`, the two uniforms it actually used were obtained
by skipping every draw that is exactly 0, so both lie in the open interval
`(0, 1)`: the Box-Muller logarithm is never applied to 0, its argument
`-2 * log u1` is nonnegative, and the sample is the finite real
`sqrt(-2 log u1) * cos(2 pi u2)`. -/
theorem generateGaussianRandom_spec (draws : List ℝ)
    (hrange : ∀ u ∈ draws, 0 ≤ u ∧ u < 1) (z : ℝ) (rest : List ℝ)
    (h : generateGaussianRandom draws = some (z, rest)) :
    ∃ u1 u2 rest1, firstNonzero draws = some (u1, rest1) ∧
      firstNonzero rest1 = some (u2, rest) ∧
      0 < u1 ∧ u1 < 1 ∧ 0 < u2 ∧ u2 < 1 ∧
      0 ≤ -2.0 * Real.log u1 ∧
      z = Real.sqrt (-2.0 * Real.log u1) * Real.cos (2.0 * Real.pi * u2) := by
  unfold generateGaussianRandom at h
  split at h
  · simp at h
  next u1 rest1 h1 =>
    split at h
    · simp at h
    next u2 rest2 h2 =>
      obtain ⟨hz, hrest⟩ : Real.sqrt (-2.0 * Real.log u1) * Real.cos (2.0 * Real.pi * u2) = z
          ∧ rest2 = rest := by
        constructor <;> [exact congrArg Prod.fst (Option.some.inj h);
          exact congrArg Prod.snd (Option.some.inj h)]
      obtain ⟨hu1ne, hu1mem, hsub1⟩ := firstNonzero_spec h1
      obtain ⟨hu2ne, hu2mem, _⟩ := firstNonzero_spec h2
      obtain ⟨hu1nn, hu1lt⟩ := hrange u1 hu1mem
      obtain ⟨hu2nn, hu2lt⟩ := hrange u2 (hsub1 u2 hu2mem)
      have hu1pos : 0 < u1 := lt_of_le_of_ne hu1nn (Ne.symm hu1ne)
      have hu2pos : 0 < u2 := lt_of_le_of_ne hu2nn (Ne.symm hu2ne)
      have hlog : Real.log u1 < 0 := Real.log_neg hu1pos hu1lt
      refine ⟨u1, u2, rest1, h1, ?_, hu1pos, hu1lt, hu2pos, hu2lt, by nlinarith, hz.symm⟩
      rw [h2, hrest]

/-- Witness for C7 on the concrete draw stream `[0, 1/2, 0, 1/2]`: the
leading 0 is skipped for `u1` and the inner 0 is skipped for `u2`. -/
theorem generateGaussianRandom_spec_witness :
    (∀ u ∈ ([0, 1/2, 0, 1/2] : List ℝ), 0 ≤ u ∧ u < 1) ∧
    generateGaussianRandom [0, 1/2, 0, 1/2]
      = some (Real.sqrt (-2.0 * Real.log (1/2)) * Real.cos (2.0 * Real.pi * (1/2)), []) ∧
    (∃ u1 u2 rest1, firstNonzero [0, 1/2, 0, 1/2] = some (u1, rest1) ∧
      firstNonzero rest1 = some (u2, []) ∧
      0 < u1 ∧ u1 < 1 ∧ 0 < u2 ∧ u2 < 1 ∧
      0 ≤ -2.0 * Real.log u1 ∧
      Real.sqrt (-2.0 * Real.log (1/2)) * Real.cos (2.0 * Real.pi * (1/2))
        = Real.sqrt (-2.0 * Real.log u1) * Real.cos (2.0 * Real.pi * u2)) := by
  have hrange : ∀ u ∈ ([0, 1/2, 0, 1/2] : List ℝ), 0 ≤ u ∧ u < 1 := by
    intro u hu
    simp only [List.mem_cons, List.not_mem_nil, or_false] at hu
    rcases hu with rfl | rfl | rfl | rfl <;> norm_num
  have hrun : generateGaussianRandom [0, 1/2, 0, 1/2]
      = some (Real.sqrt (-2.0 * Real.log (1/2)) * Real.cos (2.0 * Real.pi * (1/2)), []) := by
    norm_num [generateGaussianRandom, firstNonzero]
  exact ⟨hrange, hrun,
    generateGaussianRandom_spec [0, 1/2, 0, 1/2] hrange _ [] hrun⟩

/-- C10: for `S0 > 0` and `steps ≥ 1` (any `r`, `sigma`, `T`, any draws),
the generated path has exactly `steps + 1` points, starts at `S0`, and
every point is strictly positive, each step multiplying the previous point
by a strictly positive exponential factor. -/
theorem simulateGBMPath_spec (S0 r sigma T : ℝ) (steps : ℕ) (Z : ℕ → ℝ)
    (hS0 : 0 < S0) (hsteps : 1 ≤ steps) :
    (simulateGBMPath S0 r sigma T steps Z).length = steps + 1 ∧
    (simulateGBMPath S0 r sigma T steps Z).head? = some S0 ∧
    ∀ x ∈ simulateGBMPath S0 r sigma T steps Z, 0 < x := by
  have hpos : ∀ i, 0 < gbmStep S0 r sigma T steps Z i := by
    intro i
    induction i with
    | zero => exact hS0
    | succ i ih => exact mul_pos ih (Real.exp_pos _)
  refine ⟨by simp [simulateGBMPath], ?_, ?_⟩
  · rw [simulateGBMPath, List.range_succ_eq_map, List.map_cons, List.head?_cons]
    rfl
  · intro x hx
    rw [simulateGBMPath, List.mem_map] at hx
    obtain ⟨i, _, rfl⟩ := hx
    exact hpos i

/-- Witness for C10 at `S0 = 1`, `steps = 1`. -/
theorem simulateGBMPath_spec_witness :
    ((0:ℝ) < 1 ∧ 1 ≤ 1) ∧
    ((simulateGBMPath 1 0 0 1 1 fun _ => 0).length = 1 + 1 ∧
      (simulateGBMPath 1 0 0 1 1 fun _ => 0).head? = some 1 ∧
      ∀ x ∈ simulateGBMPath 1 0 0 1 1 fun _ => 0, 0 < x) :=
  ⟨⟨by norm_num, le_refl 1⟩,
    simulateGBMPath_spec 1 0 0 1 1 (fun _ => 0) (by norm_num) (le_refl 1)⟩

/-- C4: for a run with `N ≥ 1` iterations, `valueAtRisk` equals
`optionPrice` minus the element at index `floor(0.05 * N)` of the `N`
discounted payoffs sorted ascending: for any list `s` that is a
permutation of the discounted payoffs and is sorted by `≤`, the index is
in range and `valueAtRisk = optionPrice - s[index]`. -/
theorem valueAtRisk_spec (cfg : SimulationConfig) (Z : ℕ → ℕ → ℝ)
    (hN : 0 < cfg.iterations) (s : List ℝ)
    (hperm : s.Perm (discountedPayoffs cfg Z))
    (hsorted : s.Sorted fun a b => a ≤ b) :
    Nat.floor ((cfg.iterations : ℝ) * 0.05) < s.length ∧
    (runMonteCarloSimulation cfg Z).valueAtRisk
      = (runMonteCarloSimulation cfg Z).optionPrice
        - s.getD (Nat.floor ((cfg.iterations : ℝ) * 0.05)) 0 := by
  have hs : s = (discountedPayoffs cfg Z).insertionSort fun a b => a ≤ b :=
    List.eq_of_perm_of_sorted
      (hperm.trans (List.perm_insertionSort _ _).symm) hsorted
      (List.sorted_insertionSort _ _)
  constructor
  · have hlen : s.length = cfg.iterations := by
      rw [hperm.length_eq]
      simp [discountedPayoffs, rawPayoffs, allPaths]
    rw [hlen]
    have hNpos : (0:ℝ) < (cfg.iterations : ℝ) := Nat.cast_pos.2 hN
    exact (Nat.floor_lt (by positivity)).2 (by nlinarith)
  · rw [hs]
    rfl

/-- Witness for C4 on a one-iteration run whose single discounted payoff
is 0. -/
theorem valueAtRisk_spec_witness :
    0 < (1:ℕ) ∧
    ([0] : List ℝ).Perm (discountedPayoffs ⟨1, 1, 1, 0, 0, 1, 1, OptionType.call⟩ fun _ _ => 0) ∧
    ([0] : List ℝ).Sorted (fun a b => a ≤ b) ∧
    (Nat.floor (((1:ℕ) : ℝ) * 0.05) < ([0] : List ℝ).length ∧
      (runMonteCarloSimulation ⟨1, 1, 1, 0, 0, 1, 1, OptionType.call⟩ fun _ _ => 0).valueAtRisk
        = (runMonteCarloSimulation ⟨1, 1, 1, 0, 0, 1, 1, OptionType.call⟩ fun _ _ => 0).optionPrice
          - ([0] : List ℝ).getD (Nat.floor (((1:ℕ) : ℝ) * 0.05)) 0) := by
  have hpay : discountedPayoffs ⟨1, 1, 1, 0, 0, 1, 1, OptionType.call⟩ (fun _ _ => 0) = [0] := by
    norm_num [discountedPayoffs, rawPayoffs, allPaths, simulateGBMPath, gbmStep,
      terminalPayoff, List.range_succ, Real.exp_zero]
  have hperm : ([0] : List ℝ).Perm
      (discountedPayoffs ⟨1, 1, 1, 0, 0, 1, 1, OptionType.call⟩ fun _ _ => 0) := by
    rw [hpay]
  have hsorted : ([0] : List ℝ).Sorted (fun a b => a ≤ b) := List.sorted_singleton 0
  exact ⟨by norm_num, hperm, hsorted,
    valueAtRisk_spec ⟨1, 1, 1, 0, 0, 1, 1, OptionType.call⟩ (fun _ _ => 0)
      (by norm_num) [0] hperm hsorted⟩

/-- C6: every run's visual-path subsample has at most 20 paths, the `j`-th
of which is the path of iteration `j * max 1 (floor(N/20))`; and the four
statistics are the stated functions of all `N` payoffs - the common
`discountedPayoffs`/`rawPayoffs` lists - so they do not depend on which
paths were kept for visualization. -/
theorem monteCarloStats_spec (cfg : SimulationConfig) (Z : ℕ → ℕ → ℝ) :
    (runMonteCarloSimulation cfg Z).visualPaths.length ≤ 20 ∧
    (∀ j, j < (runMonteCarloSimulation cfg Z).visualPaths.length →
      (runMonteCarloSimulation cfg Z).visualPaths[j]?
        = (allPaths cfg Z)[j * max 1 (cfg.iterations / 20)]?) ∧
    (runMonteCarloSimulation cfg Z).optionPrice
      = (discountedPayoffs cfg Z).sum / (cfg.iterations : ℝ) ∧
    (runMonteCarloSimulation cfg Z).standardError
      = Real.sqrt ((((discountedPayoffs cfg Z).map fun p => p * p).sum / (cfg.iterations : ℝ)
          - ((discountedPayoffs cfg Z).sum / (cfg.iterations : ℝ))
            * ((discountedPayoffs cfg Z).sum / (cfg.iterations : ℝ))) / (cfg.iterations : ℝ)) ∧
    (runMonteCarloSimulation cfg Z).inTheMoneyProbability
      = ((((rawPayoffs cfg Z).filter fun p => decide (p > 0)).length : ℝ)
          / (cfg.iterations : ℝ)) * 100 ∧
    (runMonteCarloSimulation cfg Z).valueAtRisk
      = (discountedPayoffs cfg Z).sum / (cfg.iterations : ℝ)
        - ((discountedPayoffs cfg Z).insertionSort fun a b => a ≤ b).getD
            (Nat.floor ((cfg.iterations : ℝ) * 0.05)) 0 := by
  refine ⟨?_, ?_, ?_, ?_, ?_, ?_⟩
  · simp only [runMonteCarloSimulation]
    rw [List.length_take]
    exact min_le_left _ _
  · intro j hj
    simp only [runMonteCarloSimulation] at hj ⊢
    rw [List.length_take, lt_min_iff, List.length_map, List.length_range] at hj
    obtain ⟨hj20, hjk⟩ := hj
    rw [List.getElem?_take, if_pos hj20, List.getElem?_map]
    rw [show (List.range ((cfg.iterations + max 1 (cfg.iterations / 20) - 1)
        / max 1 (cfg.iterations / 20)))[j]? = some j by simp [List.getElem?_range, hjk]]
    have hstep : 1 ≤ max 1 (cfg.iterations / 20) := le_max_left _ _
    have hmul : j * max 1 (cfg.iterations / 20) < cfg.iterations := by
      have h2 : (j + 1) * max 1 (cfg.iterations / 20)
          ≤ cfg.iterations + max 1 (cfg.iterations / 20) - 1 :=
        (Nat.le_div_iff_mul_le (by omega)).1 hjk
      rw [add_mul, one_mul] at h2
      omega
    have hlenAll : (allPaths cfg Z).length = cfg.iterations := by simp [allPaths]
    rw [List.getElem?_eq_getElem (by rw [hlenAll]; exact hmul)]
    simp only [Option.map_some']
    rw [List.getD_eq_getElem _ _ (by rw [hlenAll]; exact hmul)]
  · simp [runMonteCarloSimulation, foldl_add_id_eq_sum]
  · simp [runMonteCarloSimulation, foldl_add_eq_sum, foldl_add_id_eq_sum]
  · simp [runMonteCarloSimulation]
  · simp [runMonteCarloSimulation, foldl_add_id_eq_sum]

/-- Witness for C6 on a one-iteration run, exercising the stride clause at
`j = 0`. -/
theorem monteCarloStats_spec_witness :
    (runMonteCarloSimulation ⟨1, 1, 1, 0, 0, 1, 1, OptionType.call⟩ fun _ _ => 0).visualPaths.length
      ≤ 20 ∧
    0 < (runMonteCarloSimulation ⟨1, 1, 1, 0, 0, 1, 1, OptionType.call⟩
      fun _ _ => 0).visualPaths.length ∧
    (runMonteCarloSimulation ⟨1, 1, 1, 0, 0, 1, 1, OptionType.call⟩ fun _ _ => 0).visualPaths[0]?
      = (allPaths ⟨1, 1, 1, 0, 0, 1, 1, OptionType.call⟩ fun _ _ => 0)[0 * max 1 ((1:ℕ) / 20)]? := by
  have hlen : 0 < (runMonteCarloSimulation ⟨1, 1, 1, 0, 0, 1, 1, OptionType.call⟩
      fun _ _ => 0).visualPaths.length := by
    norm_num [runMonteCarloSimulation]
  have h := monteCarloStats_spec ⟨1, 1, 1, 0, 0, 1, 1, OptionType.call⟩ fun _ _ => 0
  exact ⟨h.1, hlen, h.2.1 0 hlen⟩

end QuantDash
